import Mathlib

/-!
Verification of the Atlas fitness/nutrition chatbot core against its
natural-language specification.

The Python source is shallowly embedded: Python `str` values become Lean
`String`, substring tests (`x in s`) become an executable infix check on
character lists, float scores become `ℚ`, Firestore query results and the
TF-IDF/cosine similarity output (external libraries) are passed in as
explicit parameters, and every function is a total executable definition.
-/

/- ========================================================================
   String primitives (models of the Python `str` operations used).
   ======================================================================== -/

/-- Model of Python list/str prefix test on character lists. -/
def isPrefixL : List Char → List Char → Bool
  | [], _ => true
  | _ :: _, [] => false
  | a :: as, b :: bs => a == b && isPrefixL as bs

/-- Model of Python `needle in hay` (contiguous substring) on character lists. -/
def isSubL (needle : List Char) : List Char → Bool
  | [] => isPrefixL needle []
  | c :: cs => isPrefixL needle (c :: cs) || isSubL needle cs

/-- Model of Python `needle in hay` for strings. -/
def substr (needle hay : String) : Bool :=
  isSubL needle.toList hay.toList

/-- Model of Python `s.lower()`. -/
def lowerStr (s : String) : String := String.mk (s.toList.map Char.toLower)

/-- Characters stripped on both ends, model of Python `s.strip()`. -/
def trimL (l : List Char) : List Char :=
  ((l.dropWhile Char.isWhitespace).reverse.dropWhile Char.isWhitespace).reverse

/-- Model of Python `str(x).strip().lower()`, the normalization the source
applies to titles, names, and user-supplied terms. -/
def normStr (s : String) : String := String.mk ((trimL s.toList).map Char.toLower)

/-- Model of Python `s.rstrip('s')`: drop every trailing `'s'`. -/
def rstripS (s : String) : String :=
  String.mk (s.toList.reverse.dropWhile (· == 's')).reverse

/-- Model of Python `min(1.0, x)`-style float minimum on rationals. -/
def minQ (a b : ℚ) : ℚ := if a ≤ b then a else b

/-- Model of the comprehension `[str(x).strip().lower() for x in terms if x]`
used in `get_recommendations` to clean ignore/like/dislike lists. -/
def cleanTermList (terms : List String) : List String :=
  (terms.filter fun x => x ≠ "").map normStr

/- ========================================================================
   Descending sort keyed by a score / timestamp.
   Models `DataFrame.sort_values(ascending=False)` and the Firestore
   `order_by(..., DESCENDING)`; stable, ties keep input order.
   ======================================================================== -/

def insertDescBy {α β : Type} [LinearOrder β] (key : α → β) (x : α) : List α → List α
  | [] => [x]
  | y :: ys => if key y < key x then x :: y :: ys else y :: insertDescBy key x ys

def sortDescBy {α β : Type} [LinearOrder β] (key : α → β) (l : List α) : List α :=
  l.foldl (fun acc x => insertDescBy key x acc) []

/- ========================================================================
   Data model (src/core: Firestore documents and the user profile).
   ======================================================================== -/

/-- An exercise document from the `fitness_exercises` collection.  The source
reads the fields `Title`, `Bodypart`, `Level`, `Equipment`, `Desc`, `Type`;
`Type` is a reserved word in Lean so the last field is named `ExType`. -/
structure Exercise where
  Title : String
  Bodypart : String
  Level : String
  Equipment : String
  Desc : String
  ExType : String
deriving DecidableEq

/-- A food document from the `nutrition_items` collection. -/
structure Food where
  Name : String
  Meal_Type : String
  Category : String
  Calories : Int
  Protein : Int
  Carbs : Int
deriving DecidableEq

/-- The user profile as read by the core (`user_profile.get(...)`): every
field may be absent, in which case the source substitutes a default. -/
structure UserProfile where
  age : Option Int
  bmi : Option ℚ
  goal : Option String
  fitness_level : Option String
  medical_conditions : Option String
deriving DecidableEq

/- ========================================================================
   SafetyValidator.validate_request  (src/core/safety_validator.py)
   ======================================================================== -/

/-- The age-restriction message returned for under-18 profiles. -/
def AGE_RESTRICTION_MSG : String :=
  "⚠️ <b>Age Restriction:</b> Atlas is strictly designed for adults (18+). Please consult a real-life coach or guardian for advice suitable for your age group."

/-- Scenario A message (underweight profile with a loss/cut goal); the source
interpolates the BMI value into the text. -/
def underweightLossMsg (bmi : ℚ) : String :=
  "⚠️ <b>Health Alert:</b> Your BMI is <b>" ++ toString bmi ++
  "</b>, which indicates you may be underweight.<br><br>" ++
  "It is generally <b>not recommended</b> to pursue weight loss in this range. " ++
  "I strongly advise focusing on <b>Muscle Gain</b> or <b>Healthy Maintenance</b> to build strength safely.<br><br>" ++
  "Would you like me to switch your goal to \x27Muscle Gain\x27 for today?"

/-- Scenario B message (BMI above 35 with a pure muscle/gain goal). -/
def obesityBulkMsg (bmi : ℚ) : String :=
  "⚠️ <b>Health Advice:</b> Your BMI is <b>" ++ toString bmi ++
  "</b>. While building muscle is great, " ++
  "adding more mass (bulking) might put extra stress on your joints and heart right now.<br><br>" ++
  "I recommend a <b>\x27Body Recomposition\x27</b> approach (losing fat while keeping muscle) or consulting a medical professional " ++
  "to ensure your heart health is managed first.<br><br>" ++
  "Shall we look at some low-impact exercises instead?"

/-- Scenario C message (severe underweight, BMI below 16). -/
def severeUnderweightMsg (bmi : ℚ) : String :=
  "🛑 <b>Medical Consultation Required:</b> Your BMI is <b>" ++ toString bmi ++
  "</b>. For your safety, I cannot generate a fitness plan. Please consult a doctor or a registered dietitian " ++
  "to ensure you are getting the right nutrition for recovery."

/-- `SafetyValidator.validate_request`: profile admission check.  Missing
fields default to age 25, BMI 22, goal "General Fitness"; the checks run in
source order (age, then scenarios A, B, C). -/
def validate_request (p : UserProfile) : Bool × String :=
  let age : Int := p.age.getD 25
  let bmi : ℚ := p.bmi.getD 22
  let goal : String := p.goal.getD "General Fitness"
  if age < 18 then (false, AGE_RESTRICTION_MSG)
  else if bmi < 18.5 ∧ (substr "Loss" goal = true ∨ substr "Cut" goal = true) then
    (false, underweightLossMsg bmi)
  else if bmi > 35 ∧ (substr "Muscle" goal = true ∨ substr "Gain" goal = true) ∧
      substr "Loss" goal = false then
    (false, obesityBulkMsg bmi)
  else if bmi < 16 then (false, severeUnderweightMsg bmi)
  else (true, "")

/- ========================================================================
   SafetyValidator.filter_exercises_for_injuries
   ======================================================================== -/

/-- The injury-to-exercise risk mapping, in source (insertion) order. -/
def risk_keywords : List (String × List String) :=
  [("knee", ["squat", "lunge", "leg press", "jump", "run", "plyo"]),
   ("back", ["deadlift", "good morning", "bent over", "back extension"]),
   ("shoulder", ["overhead press", "snatch", "handstand", "bench press"]),
   ("wrist", ["push-up", "handstand", "clean", "front rack"])]

/-- The warning attached when the filter removed every candidate. -/
def OVERFILTER_WARNING : String :=
  "OVERFILTER WARNING: All exercises flagged. Showing one with caution."

/-- The first condition (in `risk_keywords` order) that is present in the
user's conditions text and has a risky keyword occurring in the exercise's
title or description — the condition at which the source's nested loop
breaks. -/
def firstRiskCondition (conditions title desc : String) : Option String :=
  (risk_keywords.find? fun ck =>
    substr ck.1 conditions && ck.2.any fun w => substr w title || substr w desc).map (·.1)

/-- Per-exercise body of the filtering loop: returns the `is_unsafe` flag and
the warnings appended for this exercise.  The plyometrics rule runs after the
keyword loop and can add a second warning for an already-flagged exercise.
The item type is abstract with field accessors because the source works on
duck-typed dicts (raw documents or ranked items with a protocol attached). -/
def injuryFlagOne {α : Type} (getTitle getDesc getType : α → String)
    (conditions : String) (ex : α) : Bool × List String :=
  let title := lowerStr (getTitle ex)
  let desc := lowerStr (getDesc ex)
  let ty := lowerStr (getType ex)
  let plyoWarn : List String :=
    if substr "knee" conditions && ty == "plyometrics" then
      ["Removed plyometric \x27" ++ title ++ "\x27 for knee safety"]
    else []
  match firstRiskCondition conditions title desc with
  | some c =>
      (true, ["Removed \x27" ++ title ++ "\x27 due to " ++ c ++ " condition"] ++ plyoWarn)
  | none => (!plyoWarn.isEmpty, plyoWarn)

/-- `SafetyValidator.filter_exercises_for_injuries`: drops exercises risky
for the stated medical conditions; if everything would be dropped, keeps the
first original exercise and appends `OVERFILTER_WARNING`. -/
def filter_exercises_for_injuries {α : Type} (getTitle getDesc getType : α → String)
    (exercises_list : List α) (medical_conditions_str : String) :
    List α × List String :=
  if medical_conditions_str = "" then (exercises_list, [])
  else
    let conditions := lowerStr medical_conditions_str
    let processed := exercises_list.map fun ex =>
      (ex, injuryFlagOne getTitle getDesc getType conditions ex)
    let warnings := (processed.map fun pe => pe.2.2).flatten
    let safe_exercises := (processed.filter fun pe => !pe.2.1).map (·.1)
    if safe_exercises.isEmpty && !exercises_list.isEmpty then
      (exercises_list.take 1, warnings ++ [OVERFILTER_WARNING])
    else (safe_exercises, warnings)

/- ========================================================================
   ContentBasedRecommender  (src/core/recommender.py)

   Firestore query results, the `random.shuffle`d catalog scan, and the
   TF-IDF/cosine similarity output of scikit-learn are external; they enter
   the model as explicit parameters (`db`, `scan`, `sim`).  The synonym
   expansion's `list(set(...))[:10]` has unspecified (CPython set) order, so
   the computed search-term list is likewise a parameter; no claim below
   depends on its contents.
   ======================================================================== -/

/-- The goal-keyword → gold-standard keyword table, in source order. -/
def GOLD_STANDARDS : List (String × List String) :=
  [("Muscle Gain", ["Squats", "Deadlifts", "Bench Press", "High Protein", "Protein", "Strength", "Hypertrophy"]),
   ("Weight Loss", ["HIIT", "Burpees", "Lean Protein", "Fiber-rich", "Cardio", "Metabolic", "Calorie Burn"]),
   ("Weight Gain", ["High Protein", "Bulking", "Compound lifts"]),
   ("Maintenance", ["Balanced", "General", "Steady state"])]

/-- Gold-standard keywords collected for a user goal: every table entry whose
key occurs as a substring of the goal contributes its keywords, in order. -/
def goldStandardsFor (user_goal : String) : List String :=
  GOLD_STANDARDS.foldl (fun acc gk => if substr gk.1 user_goal then acc ++ gk.2 else acc) []

/-- The source-local `sets` of `_get_smart_protocol`. -/
def protocol_sets (exercise_level : String) : String :=
  if exercise_level = "Beginner" then "2-3"
  else if exercise_level = "Intermediate" then "3-4"
  else if exercise_level = "Advanced" then "4-5"
  else "3"

/-- The source-local `reps, rest` of `_get_smart_protocol`. -/
def protocol_reps_rest (goal : String) : String × String :=
  if substr "Muscle" goal then ("8-12", "60s")
  else if substr "Weight" goal || substr "Loss" goal then ("12-15", "30-45s")
  else ("10-12", "60s")

/-- `_get_smart_protocol`: the sets/reps/rest display string derived from the
profile goal and the exercise's level. -/
def get_smart_protocol (p : UserProfile) (exercise_level : String) : String :=
  let goal := p.goal.getD "Maintenance"
  let sets := protocol_sets exercise_level
  let rr := protocol_reps_rest goal
  sets ++ " Sets • " ++ rr.1 ++ " Reps • " ++ rr.2 ++ " Rest"

/-- The searchable text of an exercise used by the dislike filter:
normalized title, equipment, type and description joined by spaces
(`f"{title} {equipment} {ex_type} {desc}"`). -/
def exSearchableText (d : Exercise) : String :=
  normStr d.Title ++ " " ++ normStr d.Equipment ++ " " ++ normStr d.ExType ++ " " ++ normStr d.Desc

/-- The dislike filter applied to exercises: some dislike term occurs in the
exercise's searchable text. -/
def exDislikeHit (clean_dislikes : List String) (d : Exercise) : Bool :=
  clean_dislikes.any fun bad => substr bad (exSearchableText d)

/-- The dislike filter applied to food: the source checks the normalized
`Name` only (`any(bad in name for bad in dislikes)`). -/
def foodDislikeHit (dislikes : List String) (f : Food) : Bool :=
  dislikes.any fun bad => substr bad (normStr f.Name)

/-- `_fetch_candidates`: level-and-bodypart query with a broadened fallback
query when under `min_count`.  `db` is the `fitness_exercises` collection in
document order; the two Firestore queries become filters over it. -/
def fetch_candidates (db : List Exercise) (searchTerms : List String) (level : String)
    (clean_ignore_list clean_dislikes : List String) (min_count : ℕ) : List Exercise :=
  let docs := db.filter fun d =>
    d.Level = level && (searchTerms.isEmpty || searchTerms.contains d.Bodypart)
  let firstPass := docs.foldl (fun acc d =>
    if exDislikeHit clean_dislikes d then acc
    else if normStr d.Title ≠ "" && !clean_ignore_list.contains (normStr d.Title) then
      acc ++ [d]
    else acc) []
  if firstPass.length < min_count && !searchTerms.isEmpty then
    let docs2 := (db.filter fun d => searchTerms.contains d.Bodypart).take 50
    docs2.foldl (fun acc d =>
      let current_titles := acc.map fun c => normStr c.Title
      if exDislikeHit clean_dislikes d then acc
      else if normStr d.Title ≠ "" && !clean_ignore_list.contains (normStr d.Title) &&
          !current_titles.contains (normStr d.Title) then
        acc ++ [d]
      else acc) firstPass
  else firstPass

/-- The level cascade seeded by the user's level. -/
def search_levels (user_level : String) : List String :=
  if user_level = "Beginner" then ["Beginner", "Intermediate", "Advanced"]
  else if user_level = "Advanced" then ["Advanced", "Intermediate", "Beginner"]
  else ["Intermediate", "Beginner", "Advanced"]

/-- Equipment tags treated as requiring no equipment. -/
def bodyweight_equipment : List String :=
  ["body only", "bodyweight", "body weight", "none", "other", ""]

/-- The inner loop of `_get_fitness_recs` over one level's fetched
candidates: state is (accumulated candidates, seen titles). -/
def addLevelCands (no_equipment : Bool) (st : List Exercise × List String)
    (cands : List Exercise) : List Exercise × List String :=
  cands.foldl (fun st cand =>
    if no_equipment && !bodyweight_equipment.contains (normStr cand.Equipment) then st
    else if normStr cand.Title ≠ "" && !st.2.contains (normStr cand.Title) then
      (st.1 ++ [cand], st.2 ++ [normStr cand.Title])
    else st) st

/-- The level cascade loop of `_get_fitness_recs`, breaking once
`top_k * 5` candidates are accumulated. -/
def levelLoop (db : List Exercise) (searchTerms clean_dislikes : List String)
    (no_equipment : Bool) (top_k : ℕ) :
    List String → List Exercise × List String → List Exercise × List String
  | [], st => st
  | lvl :: rest, st =>
    let cands := fetch_candidates db searchTerms lvl st.2 clean_dislikes (top_k * 3)
    let st2 := addLevelCands no_equipment st cands
    if top_k * 5 ≤ st2.1.length then st2
    else levelLoop db searchTerms clean_dislikes no_equipment top_k rest st2

/-- The randomized catalog-scan fallback of `_get_fitness_recs` (`scan` is
the shuffled 50-document sample), breaking once `top_k + 5` candidates are
accumulated.  Unlike the level loop it does not require a non-empty title. -/
def scanLoop (clean_dislikes : List String) (no_equipment : Bool) (top_k : ℕ) :
    List Exercise → List Exercise × List String → List Exercise × List String
  | [], st => st
  | d :: rest, st =>
    if no_equipment && !bodyweight_equipment.contains (normStr d.Equipment) then
      scanLoop clean_dislikes no_equipment top_k rest st
    else if exDislikeHit clean_dislikes d then
      scanLoop clean_dislikes no_equipment top_k rest st
    else if !st.2.contains (normStr d.Title) then
      let st2 := (st.1 ++ [d], st.2 ++ [normStr d.Title])
      if top_k + 5 ≤ st2.1.length then st2
      else scanLoop clean_dislikes no_equipment top_k rest st2
    else scanLoop clean_dislikes no_equipment top_k rest st

/-- The candidate pool assembled by `_get_fitness_recs` before scoring:
level cascade, then the catalog-scan fallback when still under `top_k`. -/
def fitnessCandidatePool (db scan : List Exercise) (searchTerms : List String)
    (p : UserProfile) (clean_ignore_list clean_dislikes : List String)
    (top_k : ℕ) (no_equipment : Bool) : List Exercise :=
  let user_level := p.fitness_level.getD "Intermediate"
  let st1 := levelLoop db searchTerms clean_dislikes no_equipment top_k
    (search_levels user_level) ([], clean_ignore_list)
  let st2 :=
    if st1.1.length < top_k then scanLoop clean_dislikes no_equipment top_k scan st1
    else st1
  st2.1

/-- The combined text an exercise is matched against for effectiveness
(`f"{title} {desc} {bodypart}"`, lowercased without stripping). -/
def combinedTextFit (ex : Exercise) : String :=
  lowerStr ex.Title ++ " " ++ lowerStr ex.Desc ++ " " ++ lowerStr ex.Bodypart

/-- The gold-standard keyword match count of an exercise
(`sum(1 for ks in gold_standards if ks.lower() in combined_text)`). -/
def matchCountFit (gold : List String) (ex : Exercise) : ℕ :=
  (gold.filter fun ks => substr (lowerStr ks) (combinedTextFit ex)).length

/-- The effectiveness score of an exercise: `min(1, count/3)`, plus a flat
`0.4` bonus when any keyword matched, capped at 1. -/
def effectivenessFit (gold : List String) (ex : Exercise) : ℚ :=
  let mc := matchCountFit gold ex
  let e1 := minQ 1 ((mc : ℚ) / 3)
  minQ 1 (if 0 < mc then e1 + 0.4 else e1)

/-- The preference score of an exercise: the cosine-similarity baseline plus
a flat `0.3` boost when a liked term (or its trailing-s-stripped form)
occurs in the lowercased title or equipment, capped at 1. -/
def prefScoreFit (likes : List String) (cosine_score : ℚ) (ex : Exercise) : ℚ :=
  let title := lowerStr ex.Title
  let equipment := lowerStr ex.Equipment
  let has_preference_match := likes.any fun good =>
    substr good title || substr good equipment ||
    substr (rstripS good) title || substr (rstripS good) equipment
  let preference_boost : ℚ := if has_preference_match then 0.3 else 0
  minQ 1 (cosine_score + preference_boost)

/-- The blended final score `(effectiveness * 0.7) + (user_pref * 0.3)`. -/
def finalScoreFit (gold likes : List String) (cosine_score : ℚ) (ex : Exercise) : ℚ :=
  effectivenessFit gold ex * 0.7 + prefScoreFit likes cosine_score ex * 0.3

/-- A fitness result row: the exercise with its derived protocol string. -/
structure RankedExercise where
  ex : Exercise
  protocol : String
deriving DecidableEq

/-- `_get_fitness_recs`.  `sim = some scores` is the cosine-similarity row
produced by scikit-learn for the candidate pool (one score per candidate, in
pool order); `sim = none` is the case where the TF-IDF computation raises,
which the source catches locally (`except: pass`), leaving the pool in
retrieval order without a score column. -/
def get_fitness_recs (db scan : List Exercise) (searchTerms : List String)
    (sim : Option (List ℚ)) (p : UserProfile)
    (clean_ignore_list likes dislikes : List String)
    (top_k : ℕ) (no_equipment : Bool) : List RankedExercise :=
  let candidates := fitnessCandidatePool db scan searchTerms p clean_ignore_list dislikes
    top_k no_equipment
  if candidates.isEmpty then []
  else
    let gold := goldStandardsFor (p.goal.getD "Maintenance")
    let ordered :=
      match sim with
      | none => candidates
      | some base_scores =>
          let scored := (candidates.zip base_scores).map fun (cb : Exercise × ℚ) =>
            (cb.1, finalScoreFit gold likes cb.2 cb.1)
          (sortDescBy Prod.snd scored).map Prod.fst
    (ordered.take top_k).map fun e => RankedExercise.mk e (get_smart_protocol p e.Level)

/-- The candidate filter loop of `_get_nutrition_recs` over the fetched
items: drops ignored names, dislike hits, and items failing the
chicken/vegetarian preference checks.  `preference` and `category` are the
already-lowercased entity hints (`str(v).lower() if v else ''`). -/
def nutritionFirstStage (items : List Food) (preference category : String)
    (clean_ignore_list dislikes : List String) : List Food :=
  items.filter fun item =>
    !clean_ignore_list.contains (normStr item.Name) &&
    !foodDislikeHit dislikes item &&
    (!(substr "chicken" preference || substr "chicken" category) ||
      substr "chicken" (normStr item.Name)) &&
    !(substr "vegetarian" preference &&
      (["chicken", "beef", "pork", "fish"].any fun x => substr x (normStr item.Name)))

/-- The candidate pool of `_get_nutrition_recs`: the filtered items, falling
back (when that is empty) to every fetched item not on the ignore list. -/
def nutritionCandidatePool (items : List Food) (preference category : String)
    (clean_ignore_list dislikes : List String) : List Food :=
  let candidates := nutritionFirstStage items preference category clean_ignore_list dislikes
  if candidates.isEmpty then
    items.filter fun i => !clean_ignore_list.contains (normStr i.Name)
  else candidates

/-- The combined text a food item is matched against for effectiveness
(`f"{name} {cat}"`, lowercased). -/
def combinedTextNut (f : Food) : String :=
  lowerStr f.Name ++ " " ++ lowerStr f.Category

/-- The gold-standard match count of a food item, including the two macro
bonuses.  Note the source checks `'Salad' in cat` against the *lowercased*
category, so that bonus can never fire; it is modelled as written. -/
def matchCountNut (gold : List String) (f : Food) : ℕ :=
  (gold.filter fun ks => substr (lowerStr ks) (combinedTextNut f)).length +
  (if gold.contains "High Protein" && decide (20 < f.Protein) then 2 else 0) +
  (if gold.contains "Fiber-rich" && substr "Salad" (lowerStr f.Category) then 1 else 0)

/-- The effectiveness score of a food item. -/
def effectivenessNut (gold : List String) (f : Food) : ℚ :=
  let mc := matchCountNut gold f
  let e1 := minQ 1 ((mc : ℚ) / 3)
  minQ 1 (if 0 < mc then e1 + 0.4 else e1)

/-- The preference score of a food item: the cosine baseline plus a flat
`0.3` boost when a liked term (or its trailing-s-stripped form) occurs in the
lowercased name, capped at 1. -/
def prefScoreNut (likes : List String) (cosine_score : ℚ) (f : Food) : ℚ :=
  let name := lowerStr f.Name
  let has_preference_match := likes.any fun good =>
    substr good name || substr (rstripS good) name
  let preference_boost : ℚ := if has_preference_match then 0.3 else 0
  minQ 1 (cosine_score + preference_boost)

/-- The blended final score for a food item. -/
def finalScoreNut (gold likes : List String) (cosine_score : ℚ) (f : Food) : ℚ :=
  effectivenessNut gold f * 0.7 + prefScoreNut likes cosine_score f * 0.3

/-- `_get_nutrition_recs`.  `items` is the result of the meal-type / protein
/ whole-collection Firestore query (external store, document order); `sim`
is the cosine-similarity row as in `get_fitness_recs`, with `none` for the
locally-caught TF-IDF failure. -/
def get_nutrition_recs (items : List Food) (sim : Option (List ℚ)) (p : UserProfile)
    (pref_val cat_val : Option String) (clean_ignore_list likes dislikes : List String)
    (top_k : ℕ) : List Food :=
  let preference := match pref_val with | some v => lowerStr v | none => ""
  let category := match cat_val with | some v => lowerStr v | none => ""
  if items.isEmpty then []
  else
    let candidates := nutritionCandidatePool items preference category clean_ignore_list dislikes
    if candidates.isEmpty then []
    else
      let gold := goldStandardsFor (p.goal.getD "Maintenance")
      let ordered :=
        match sim with
        | none => candidates
        | some base_scores =>
            let scored := (candidates.zip base_scores).map fun (cb : Food × ℚ) =>
              (cb.1, finalScoreNut gold likes cb.2 cb.1)
            (sortDescBy Prod.snd scored).map Prod.fst
      ordered.take top_k

/-- `get_recommendations` for a fitness intent: cleans the ignore, like and
dislike lists and dispatches to `_get_fitness_recs`. -/
def get_recommendations_fitness (db scan : List Exercise) (searchTerms : List String)
    (sim : Option (List ℚ)) (p : UserProfile)
    (ignore_list likes dislikes : List String) (top_k : ℕ) (no_equipment : Bool) :
    List RankedExercise :=
  get_fitness_recs db scan searchTerms sim p (cleanTermList ignore_list)
    (cleanTermList likes) (cleanTermList dislikes) top_k no_equipment

/-- `get_recommendations` for a nutrition intent. -/
def get_recommendations_nutrition (items : List Food) (sim : Option (List ℚ))
    (p : UserProfile) (pref_val cat_val : Option String)
    (ignore_list likes dislikes : List String) (top_k : ℕ) : List Food :=
  get_nutrition_recs items sim p pref_val cat_val (cleanTermList ignore_list)
    (cleanTermList likes) (cleanTermList dislikes) top_k

/- ========================================================================
   SimpleMemory  (src/core/simple_memory.py)
   ======================================================================== -/

/-- One document of a user's `recent_recommendations` subcollection.
Timestamps are modelled as minutes (any fixed unit works). -/
structure RecEntry where
  title : String
  category : String
  timestamp : Int
deriving DecidableEq

/-- `SimpleMemory.get_recent_items`: the source computes
`cutoff = datetime.now() - timedelta(days=1)` but never adds it to the
query, which only filters by category, orders by timestamp descending and
limits to 20.  `now` is kept as a parameter to make the dead cutoff
explicit: the result does not depend on it. -/
def get_recent_items (store : List RecEntry) (now : Int) (category : String) :
    List String :=
  let _cutoff : Int := now - 1440
  let docs := sortDescBy (fun e : RecEntry => e.timestamp)
    (store.filter fun e => e.category = category)
  (docs.take 20).map fun e => e.title

/-- Modelled from the spec: `recent(userId, category, windowHours=24,
limit=20)` "returns recently shown titles in that category, most-recent-
first", restricted to titles recorded within the last 24 hours.  This is
the missing window filter, for comparison with `get_recent_items`. -/
def get_recent_items_spec (store : List RecEntry) (now : Int) (category : String) :
    List String :=
  let docs := sortDescBy (fun e : RecEntry => e.timestamp)
    (store.filter fun e => e.category = category && now - e.timestamp ≤ 1440)
  (docs.take 20).map fun e => e.title

/- ========================================================================
   The chat pipeline around the core (src/app.py, fitness branch): safety
   gate, recommendation, injury filter, response selection.
   ======================================================================== -/

/-- Outcome of one fitness request in the chat handler. -/
inductive FitnessOutcome where
  | Blocked : String → FitnessOutcome
  | Cards : List RankedExercise → List String → FitnessOutcome
  | Fallback : FitnessOutcome
deriving DecidableEq

/-- The fitness-request branch of the chat handler: `validate_request`
first (fitness intents are health intents), then recommendations with
`top_k = 3`, then the injury filter; an empty final list falls back to a
generic text response. -/
def fitness_pipeline (db scan : List Exercise) (searchTerms : List String)
    (sim : Option (List ℚ)) (p : UserProfile)
    (ignore_list likes dislikes : List String) (no_equipment : Bool) :
    FitnessOutcome :=
  let v := validate_request p
  if !v.1 then FitnessOutcome.Blocked v.2
  else
    let raw := get_recommendations_fitness db scan searchTerms sim p ignore_list likes
      dislikes 3 no_equipment
    let fr := filter_exercises_for_injuries (fun r => r.ex.Title) (fun r => r.ex.Desc)
      (fun r => r.ex.ExType) raw (p.medical_conditions.getD "")
    if fr.1.isEmpty then FitnessOutcome.Fallback
    else FitnessOutcome.Cards fr.1 fr.2

/- ========================================================================
   Spec-side definitions for the refinement claims.
   ======================================================================== -/

/-- Modelled from the spec: a goal is muscle-oriented when it contains the
keyword "Muscle". -/
def muscleOriented (goal : String) : Bool := substr "Muscle" goal

/-- Modelled from the spec: a goal is loss-oriented when it contains the
keyword "Loss". -/
def lossOriented (goal : String) : Bool := substr "Loss" goal

/-- Modelled from the spec: "fall back to retrieval order with
effectiveness-only scoring" — the candidate pool ranked by the
effectiveness component alone (stable, descending). -/
def effectivenessOnlyOrder (gold : List String) (cands : List Exercise) : List Exercise :=
  (sortDescBy Prod.snd (cands.map fun c => (c, effectivenessFit gold c))).map Prod.fst

/-- Modelled from the spec: the food dislike filter as the spec states it —
some dislike term occurs as a substring of the concatenated name and
category fields. -/
def foodDislikeHitSpec (dislikes : List String) (f : Food) : Bool :=
  dislikes.any fun bad => substr bad (normStr f.Name ++ " " ++ normStr f.Category)

/- ========================================================================
   Helper lemmas.
   ======================================================================== -/

theorem isPrefixL_append {n l : List Char} (l2 : List Char)
    (h : isPrefixL n l = true) : isPrefixL n (l ++ l2) = true := by
  induction n generalizing l with
  | nil => simp [isPrefixL]
  | cons a as ih =>
    cases l with
    | nil => simp [isPrefixL] at h
    | cons b bs =>
      simp only [isPrefixL, Bool.and_eq_true] at h ⊢
      exact ⟨h.1, ih h.2⟩

theorem isSubL_append_left {n l : List Char} (l2 : List Char)
    (h : isSubL n l = true) : isSubL n (l ++ l2) = true := by
  induction l with
  | nil =>
    simp only [isSubL] at h
    cases n with
    | nil => cases l2 <;> simp [isSubL, isPrefixL]
    | cons c cs => simp [isPrefixL] at h
  | cons b bs ih =>
    simp only [isSubL, Bool.or_eq_true, List.cons_append] at h ⊢
    rcases h with h | h
    · exact Or.inl (isPrefixL_append l2 h)
    · exact Or.inr (ih h)

theorem isSubL_append_right {n : List Char} (l : List Char) {l2 : List Char}
    (h : isSubL n l2 = true) : isSubL n (l ++ l2) = true := by
  induction l with
  | nil => simpa using h
  | cons b bs ih =>
    cases l2 with
    | nil =>
      simp only [isSubL] at h
      cases n with
      | nil => simp [List.append_nil]; induction (b :: bs) <;> simp_all [isSubL, isPrefixL]
      | cons c cs => simp [isPrefixL] at h
    | cons c cs =>
      simp only [List.cons_append, isSubL, Bool.or_eq_true]
      exact Or.inr ih

theorem substr_append_right (s : String) {n s2 : String}
    (h : substr n s2 = true) : substr n (s ++ s2) = true := by
  unfold substr at h ⊢
  have : (s ++ s2).toList = s.toList ++ s2.toList := by
    simp [String.toList, String.data_append]
  rw [this]
  exact isSubL_append_right s.toList h

theorem substr_append_left (s2 : String) {n s : String}
    (h : substr n s = true) : substr n (s ++ s2) = true := by
  unfold substr at h ⊢
  have : (s ++ s2).toList = s.toList ++ s2.toList := by
    simp [String.toList, String.data_append]
  rw [this]
  exact isSubL_append_left s2.toList h

theorem substr_hay_empty (n : String) : substr n "" = n.toList.isEmpty := by
  unfold substr
  show isSubL n.toList [] = n.toList.isEmpty
  cases n.toList <;> simp [isSubL, isPrefixL]

theorem mem_insertDescBy {α β : Type} [LinearOrder β] (key : α → β) (x a : α)
    (l : List α) : a ∈ insertDescBy key x l ↔ a = x ∨ a ∈ l := by
  induction l with
  | nil => simp [insertDescBy]
  | cons y ys ih =>
    simp only [insertDescBy]
    split
    · simp
    · simp only [List.mem_cons, ih]
      tauto

theorem mem_sortDescBy {α β : Type} [LinearOrder β] (key : α → β) (a : α)
    (l : List α) : a ∈ sortDescBy key l ↔ a ∈ l := by
  have general : ∀ (l acc : List α),
      a ∈ l.foldl (fun acc x => insertDescBy key x acc) acc ↔ a ∈ acc ∨ a ∈ l := by
    intro l
    induction l with
    | nil => simp
    | cons x xs ih =>
      intro acc
      simp only [List.foldl_cons, ih, mem_insertDescBy, List.mem_cons]
      tauto
  simpa [sortDescBy] using general l []

theorem minQ_le_one (x : ℚ) : minQ 1 x ≤ 1 := by
  unfold minQ
  split
  · exact le_refl 1
  · linarith [lt_of_not_le (by assumption : ¬ (1:ℚ) ≤ x)]

theorem minQ_nonneg {x : ℚ} (hx : 0 ≤ x) : 0 ≤ minQ 1 x := by
  unfold minQ
  split
  · norm_num
  · exact hx

/- ========================================================================
   Claim theorems.
   ======================================================================== -/

/-- C1: for every profile whose age field is less than 18, the admission
check `validate_request` returns `ok = false` with the (non-empty) age
restriction message, independent of every other profile field, and the
fitness pipeline therefore always yields the Blocked outcome for such a
profile. -/
theorem validate_request_blocks_minors (p : UserProfile) (a : Int)
    (ha : p.age = some a) (hlt : a < 18) :
    validate_request p = (false, AGE_RESTRICTION_MSG) ∧
    AGE_RESTRICTION_MSG ≠ "" ∧
    ∀ db scan terms sim ignore_list likes dislikes no_equipment,
      fitness_pipeline db scan terms sim p ignore_list likes dislikes no_equipment =
        FitnessOutcome.Blocked AGE_RESTRICTION_MSG := by
  have h1 : validate_request p = (false, AGE_RESTRICTION_MSG) := by
    simp only [validate_request, ha, Option.getD_some]
    rw [if_pos hlt]
  refine ⟨h1, by decide, ?_⟩
  intro db scan terms sim ignore_list likes dislikes no_equipment
  simp [fitness_pipeline, h1]

/-- Witness for C1 at a concrete 15-year-old profile. -/
theorem validate_request_blocks_minors_witness :
    validate_request ⟨some 15, some 22, some "Muscle Gain", some "Beginner", none⟩ =
      (false, AGE_RESTRICTION_MSG) ∧
    fitness_pipeline [] [] [] none
        ⟨some 15, some 22, some "Muscle Gain", some "Beginner", none⟩ [] [] [] false =
      FitnessOutcome.Blocked AGE_RESTRICTION_MSG := by
  have h := validate_request_blocks_minors
    ⟨some 15, some 22, some "Muscle Gain", some "Beginner", none⟩ 15 rfl (by norm_num)
  exact ⟨h.1, h.2.2 [] [] [] none [] [] [] false⟩

/-- C2: for adult profiles, BMI 17.0 with a loss-containing goal is rejected
with the muscle-gain redirect message, and BMI below 16 is rejected
regardless of the goal. -/
theorem validate_request_bmi_gating (p : UserProfile) (a : Int) (b : ℚ) (g : String)
    (ha : p.age = some a) (h18 : 18 ≤ a) (hb : p.bmi = some b) (hg : p.goal = some g) :
    (b = 17 → lossOriented g = true →
      validate_request p = (false, underweightLossMsg 17) ∧
      substr "Muscle Gain" (underweightLossMsg 17) = true) ∧
    (b < 16 → (validate_request p).1 = false) := by
  have hage : ¬ a < 18 := by omega
  constructor
  · intro hb17 hloss
    subst hb17
    constructor
    · simp only [validate_request, ha, hb, hg, Option.getD_some]
      rw [if_neg hage]
      rw [if_pos ⟨by norm_num, Or.inl (by simpa [lossOriented] using hloss)⟩]
    · have hsub : substr "Muscle Gain"
          "I strongly advise focusing on <b>Muscle Gain</b> or <b>Healthy Maintenance</b> to build strength safely.<br><br>" = true := by
        decide
      unfold underweightLossMsg
      exact substr_append_left _ (substr_append_right _ (substr_append_left _ hsub))
  · intro hblt
    simp only [validate_request, ha, hb, hg, Option.getD_some]
    rw [if_neg hage]
    by_cases hLC : substr "Loss" g = true ∨ substr "Cut" g = true
    · rw [if_pos ⟨by linarith, hLC⟩]
    · rw [if_neg (by tauto)]
      rw [if_neg (by rintro ⟨h35, -⟩; linarith)]
      rw [if_pos hblt]

/-- Witness for C2: a 25-year-old with BMI 17 and goal "Weight Loss" is
blocked with the muscle-gain redirect, and one with BMI 15.5 and goal
"Muscle Gain" is blocked as well. -/
theorem validate_request_bmi_gating_witness :
    validate_request ⟨some 25, some 17, some "Weight Loss", none, none⟩ =
      (false, underweightLossMsg 17) ∧
    substr "Muscle Gain" (underweightLossMsg 17) = true ∧
    (validate_request ⟨some 25, some 15.5, some "Muscle Gain", none, none⟩).1 = false := by
  have h1 := validate_request_bmi_gating
    ⟨some 25, some 17, some "Weight Loss", none, none⟩ 25 17 "Weight Loss"
    rfl (by norm_num) rfl rfl
  have h2 := validate_request_bmi_gating
    ⟨some 25, some 15.5, some "Muscle Gain", none, none⟩ 25 15.5 "Muscle Gain"
    rfl (by norm_num) rfl rfl
  have ha := h1.1 rfl (by decide)
  exact ⟨ha.1, ha.2, h2.2 (by norm_num)⟩

/-- C10: a profile missing both the age and the BMI field gets the safe
defaults (age 25, BMI 22) and is admitted with an empty message — for every
goal, in particular every non-risky one. -/
theorem validate_request_missing_fields_admitted (p : UserProfile)
    (ha : p.age = none) (hb : p.bmi = none) :
    validate_request p = (true, "") := by
  simp only [validate_request, ha, hb, Option.getD_none]
  rw [if_neg (by norm_num : ¬ (25:Int) < 18)]
  rw [if_neg (by rintro ⟨h, -⟩; norm_num at h)]
  rw [if_neg (by rintro ⟨h, -⟩; norm_num at h)]
  rw [if_neg (by norm_num)]

/-- Witness for C10: a profile with no age and no BMI and a maintenance goal
is admitted. -/
theorem validate_request_missing_fields_admitted_witness :
    validate_request ⟨none, none, some "Maintenance", none, none⟩ = (true, "") :=
  validate_request_missing_fields_admitted ⟨none, none, some "Maintenance", none, none⟩ rfl rfl

/-- An exercise is never flagged against an empty conditions text. -/
theorem injuryFlagOne_empty_conditions {α : Type} (gT gD gTy : α → String) (e : α) :
    (injuryFlagOne gT gD gTy "" e).1 = false := by
  have k1 : substr "knee" "" = false := by decide
  have k2 : substr "back" "" = false := by decide
  have k3 : substr "shoulder" "" = false := by decide
  have k4 : substr "wrist" "" = false := by decide
  simp [injuryFlagOne, firstRiskCondition, risk_keywords, List.find?, k1, k2, k3, k4]

/-- C3: for every non-empty exercise list and conditions text under which
the injury filter flags every exercise, `filter_exercises_for_injuries`
returns exactly the first original exercise (a list of length 1) together
with a non-empty warnings list containing the over-filter warning. -/
theorem injury_filter_overfilter_floor {α : Type} (gT gD gTy : α → String)
    (l : List α) (cond : String) (hne : l ≠ [])
    (hall : ∀ e ∈ l, (injuryFlagOne gT gD gTy (lowerStr cond) e).1 = true) :
    (filter_exercises_for_injuries gT gD gTy l cond).1 = l.take 1 ∧
    (filter_exercises_for_injuries gT gD gTy l cond).1.length = 1 ∧
    OVERFILTER_WARNING ∈ (filter_exercises_for_injuries gT gD gTy l cond).2 ∧
    (filter_exercises_for_injuries gT gD gTy l cond).2 ≠ [] := by
  obtain ⟨e0, rest, rfl⟩ : ∃ e0 rest, l = e0 :: rest := by
    cases l with
    | nil => exact absurd rfl hne
    | cons a as => exact ⟨a, as, rfl⟩
  have hcond : cond ≠ "" := by
    intro hc
    have h0 := hall e0 (List.mem_cons_self e0 rest)
    rw [hc] at h0
    have : lowerStr "" = "" := by decide
    rw [this, injuryFlagOne_empty_conditions] at h0
    exact Bool.false_ne_true h0
  unfold filter_exercises_for_injuries
  rw [if_neg hcond]
  have hfil : (((e0 :: rest).map fun ex =>
      (ex, injuryFlagOne gT gD gTy (lowerStr cond) ex)).filter
        fun pe => !pe.2.1) = [] := by
    rw [List.filter_eq_nil_iff]
    intro pe hpe
    obtain ⟨ex, hex, rfl⟩ := List.mem_map.mp hpe
    simp [hall ex hex]
  simp only [hfil]
  rw [if_pos (by simp)]
  refine ⟨rfl, by simp, ?_, by simp⟩
  exact List.mem_append_right _ (List.mem_singleton.mpr rfl)

/-- Witness for C3: a single squat exercise against a "knee" condition. -/
theorem injury_filter_overfilter_floor_witness :
    (filter_exercises_for_injuries (fun e : Exercise => e.Title) (fun e => e.Desc)
      (fun e => e.ExType)
      [⟨"Squat", "Legs", "Beginner", "Body Only", "", "Strength"⟩] "knee").1 =
      [(⟨"Squat", "Legs", "Beginner", "Body Only", "", "Strength"⟩ : Exercise)].take 1 ∧
    OVERFILTER_WARNING ∈
      (filter_exercises_for_injuries (fun e : Exercise => e.Title) (fun e => e.Desc)
        (fun e => e.ExType)
        [⟨"Squat", "Legs", "Beginner", "Body Only", "", "Strength"⟩] "knee").2 := by
  have h := injury_filter_overfilter_floor (fun e : Exercise => e.Title)
    (fun e => e.Desc) (fun e => e.ExType)
    [⟨"Squat", "Legs", "Beginner", "Body Only", "", "Strength"⟩] "knee"
    (by decide) (by decide)
  exact ⟨h.1, h.2.2.1⟩

/-- C5 (code bug): `get_recent_items` returns titles recorded outside the
24-hour window.  With a single "exercises" entry recorded 48 hours (2880
minutes) before `now`, the code returns its title while the spec's windowed
query returns nothing; moreover the code's result does not depend on `now`
at all, because the computed cutoff is never applied. -/
theorem get_recent_items_ignores_window :
    get_recent_items [⟨"Old Squats", "exercises", 0⟩] 2880 "exercises" = ["Old Squats"] ∧
    get_recent_items_spec [⟨"Old Squats", "exercises", 0⟩] 2880 "exercises" = [] ∧
    ∀ (store : List RecEntry) (now1 now2 : Int) (cat : String),
      get_recent_items store now1 cat = get_recent_items store now2 cat := by
  exact ⟨by decide, by decide, fun store now1 now2 cat => rfl⟩

/-- C9 (counterexample): the goal "Weight Gain" is neither muscle-oriented
nor loss-oriented, yet `_get_smart_protocol` gives it the loss protocol
(12-15 reps, 30-45s rest) instead of the claimed default 10-12 reps / 60s,
because the source branches on `'Weight' in goal or 'Loss' in goal`. -/
theorem smart_protocol_weight_gain_counterexample :
    muscleOriented "Weight Gain" = false ∧ lossOriented "Weight Gain" = false ∧
    get_smart_protocol ⟨some 25, some 22, some "Weight Gain", some "Beginner", none⟩
      "Beginner" = "2-3 Sets • 12-15 Reps • 30-45s Rest" ∧
    get_smart_protocol ⟨some 25, some 22, some "Weight Gain", some "Beginner", none⟩
      "Beginner" ≠ "2-3 Sets • 10-12 Reps • 60s Rest" := by
  decide

/-- C9 (amended): sets are 2-3/3-4/4-5 for Beginner/Intermediate/Advanced;
reps/rest are 8-12/60s when the goal contains "Muscle", otherwise
12-15/30-45s when the goal contains "Weight" **or** "Loss" (so "Weight
Gain" also gets the loss protocol), and 10-12/60s in every remaining
case. -/
theorem smart_protocol_characterization (p : UserProfile) (goal lvl : String)
    (hg : p.goal = some goal) :
    (muscleOriented goal = true → protocol_reps_rest goal = ("8-12", "60s")) ∧
    (muscleOriented goal = false →
      (substr "Weight" goal = true ∨ lossOriented goal = true) →
      protocol_reps_rest goal = ("12-15", "30-45s")) ∧
    (muscleOriented goal = false → substr "Weight" goal = false →
      lossOriented goal = false → protocol_reps_rest goal = ("10-12", "60s")) ∧
    protocol_sets "Beginner" = "2-3" ∧ protocol_sets "Intermediate" = "3-4" ∧
    protocol_sets "Advanced" = "4-5" ∧
    get_smart_protocol p lvl =
      protocol_sets lvl ++ " Sets • " ++ (protocol_reps_rest goal).1 ++ " Reps • " ++
        (protocol_reps_rest goal).2 ++ " Rest" := by
  refine ⟨?_, ?_, ?_, by decide, by decide, by decide, ?_⟩
  · intro hm
    simp only [muscleOriented] at hm
    simp [protocol_reps_rest, hm]
  · intro hm hw
    simp only [muscleOriented] at hm
    simp only [lossOriented] at hw
    rcases hw with hw | hw <;> simp [protocol_reps_rest, hm, hw]
  · intro hm hw hl
    simp only [muscleOriented] at hm
    simp only [lossOriented] at hl
    simp [protocol_reps_rest, hm, hw, hl]
  · simp [get_smart_protocol, hg]

/-- Witness for the amended C9 at goal "Muscle Gain", level "Beginner". -/
theorem smart_protocol_characterization_witness :
    protocol_reps_rest "Muscle Gain" = ("8-12", "60s") ∧
    get_smart_protocol ⟨none, none, some "Muscle Gain", none, none⟩ "Beginner" =
      protocol_sets "Beginner" ++ " Sets • " ++ (protocol_reps_rest "Muscle Gain").1 ++
        " Reps • " ++ (protocol_reps_rest "Muscle Gain").2 ++ " Rest" := by
  have h := smart_protocol_characterization
    ⟨none, none, some "Muscle Gain", none, none⟩ "Muscle Gain" "Beginner" rfl
  exact ⟨h.1 (by decide), h.2.2.2.2.2.2⟩

theorem effectiveness_aux_bounds (mc : ℕ) :
    0 ≤ minQ 1 (if 0 < mc then minQ 1 ((mc : ℚ) / 3) + 0.4 else minQ 1 ((mc : ℚ) / 3)) ∧
    minQ 1 (if 0 < mc then minQ 1 ((mc : ℚ) / 3) + 0.4 else minQ 1 ((mc : ℚ) / 3)) ≤ 1 := by
  have h0 : (0:ℚ) ≤ (mc : ℚ) / 3 := by positivity
  have e1nn : 0 ≤ minQ 1 ((mc : ℚ) / 3) := minQ_nonneg h0
  refine ⟨minQ_nonneg ?_, minQ_le_one _⟩
  split
  · linarith
  · exact e1nn

theorem pref_aux_bounds (b cos : ℚ) (hb : 0 ≤ b) (hcos : 0 ≤ cos) :
    0 ≤ minQ 1 (cos + b) ∧ minQ 1 (cos + b) ≤ 1 :=
  ⟨minQ_nonneg (by linarith), minQ_le_one _⟩

/-- C8: for every candidate, the effectiveness score, the preference score
and the blended final score `0.7 * effectiveness + 0.3 * preference` all lie
in [0, 1] (for both the fitness and the nutrition scorer), given that the
cosine-similarity baseline is non-negative, as it is for TF-IDF vectors. -/
theorem scoring_bounds (gold likes : List String) (cosine_score : ℚ)
    (ex : Exercise) (f : Food) (hcos : 0 ≤ cosine_score) :
    (0 ≤ effectivenessFit gold ex ∧ effectivenessFit gold ex ≤ 1) ∧
    (0 ≤ prefScoreFit likes cosine_score ex ∧ prefScoreFit likes cosine_score ex ≤ 1) ∧
    (0 ≤ finalScoreFit gold likes cosine_score ex ∧
      finalScoreFit gold likes cosine_score ex ≤ 1) ∧
    (0 ≤ effectivenessNut gold f ∧ effectivenessNut gold f ≤ 1) ∧
    (0 ≤ prefScoreNut likes cosine_score f ∧ prefScoreNut likes cosine_score f ≤ 1) ∧
    (0 ≤ finalScoreNut gold likes cosine_score f ∧
      finalScoreNut gold likes cosine_score f ≤ 1) := by
  have heF : 0 ≤ effectivenessFit gold ex ∧ effectivenessFit gold ex ≤ 1 :=
    effectiveness_aux_bounds (matchCountFit gold ex)
  have heN : 0 ≤ effectivenessNut gold f ∧ effectivenessNut gold f ≤ 1 :=
    effectiveness_aux_bounds (matchCountNut gold f)
  have hpF : 0 ≤ prefScoreFit likes cosine_score ex ∧
      prefScoreFit likes cosine_score ex ≤ 1 := by
    unfold prefScoreFit
    apply pref_aux_bounds _ _ _ hcos
    split <;> norm_num
  have hpN : 0 ≤ prefScoreNut likes cosine_score f ∧
      prefScoreNut likes cosine_score f ≤ 1 := by
    unfold prefScoreNut
    apply pref_aux_bounds _ _ _ hcos
    split <;> norm_num
  refine ⟨heF, hpF, ⟨?_, ?_⟩, heN, hpN, ⟨?_, ?_⟩⟩
  · unfold finalScoreFit; nlinarith [heF.1, hpF.1]
  · unfold finalScoreFit; nlinarith [heF.2, hpF.2, heF.1, hpF.1]
  · unfold finalScoreNut; nlinarith [heN.1, hpN.1]
  · unfold finalScoreNut; nlinarith [heN.2, hpN.2, heN.1, hpN.1]

/-- Witness for C8 at a concrete exercise, food item and zero cosine
baseline. -/
theorem scoring_bounds_witness :
    (0:ℚ) ≤ 0 ∧
    (0 ≤ finalScoreFit ["Squats"] ["dumbbell"] 0
        ⟨"Squats", "Legs", "Beginner", "Barbell", "", "Strength"⟩ ∧
      finalScoreFit ["Squats"] ["dumbbell"] 0
        ⟨"Squats", "Legs", "Beginner", "Barbell", "", "Strength"⟩ ≤ 1) := by
  have h := scoring_bounds ["Squats"] ["dumbbell"] 0
    ⟨"Squats", "Legs", "Beginner", "Barbell", "", "Strength"⟩
    ⟨"Oats", "Breakfast", "Grains", 300, 10, 50⟩ (le_refl 0)
  exact ⟨le_refl 0, h.2.2.1⟩

theorem foldl_preserve {σ α : Type} (f : σ → α → σ) (P : σ → Prop)
    (hf : ∀ s a, P s → P (f s a)) (l : List α) (s : σ) (hs : P s) :
    P (l.foldl f s) := by
  induction l generalizing s with
  | nil => exact hs
  | cons a as ih => exact ih _ (hf _ _ hs)

/-- The seen-title / candidate invariant threaded through the candidate
assembly of `_get_fitness_recs`: the ignore list stays inside the seen set,
and no accumulated candidate has an ignored normalized title. -/
def PoolInv (ign : List String) (st : List Exercise × List String) : Prop :=
  (∀ x ∈ ign, x ∈ st.2) ∧ (∀ c ∈ st.1, normStr c.Title ∉ ign)

theorem poolInv_add (ign : List String) (st : List Exercise × List String)
    (cand : Exercise) (hinv : PoolInv ign st)
    (hnew : st.2.contains (normStr cand.Title) = false) :
    PoolInv ign (st.1 ++ [cand], st.2 ++ [normStr cand.Title]) := by
  obtain ⟨h1, h2⟩ := hinv
  have hnotseen : normStr cand.Title ∉ st.2 := by simpa using hnew
  constructor
  · exact fun x hx => List.mem_append_left _ (h1 x hx)
  · intro c hc
    rcases List.mem_append.mp hc with hc | hc
    · exact h2 c hc
    · rw [List.mem_singleton.mp hc]
      exact fun hmem => hnotseen (h1 _ hmem)

theorem addLevelCands_inv (no_equipment : Bool) (ign : List String)
    (cands : List Exercise) (st : List Exercise × List String)
    (hinv : PoolInv ign st) : PoolInv ign (addLevelCands no_equipment st cands) := by
  unfold addLevelCands
  apply foldl_preserve _ _ _ cands st hinv
  intro s cand hs
  dsimp only
  split
  · exact hs
  · split
    · rename_i hcond
      simp only [Bool.and_eq_true, Bool.not_eq_true'] at hcond
      exact poolInv_add ign s cand hs hcond.2
    · exact hs

theorem levelLoop_inv (db : List Exercise) (terms dislikes : List String)
    (no_equipment : Bool) (k : ℕ) (ign : List String) (levels : List String)
    (st : List Exercise × List String) (hinv : PoolInv ign st) :
    PoolInv ign (levelLoop db terms dislikes no_equipment k levels st) := by
  induction levels generalizing st with
  | nil => simpa [levelLoop]
  | cons lvl rest ih =>
    simp only [levelLoop]
    have h2 := addLevelCands_inv no_equipment ign
      (fetch_candidates db terms lvl st.2 dislikes (k * 3)) st hinv
    split
    · exact h2
    · exact ih _ h2

theorem scanLoop_inv (dislikes : List String) (no_equipment : Bool) (k : ℕ)
    (ign : List String) (scan : List Exercise)
    (st : List Exercise × List String) (hinv : PoolInv ign st) :
    PoolInv ign (scanLoop dislikes no_equipment k scan st) := by
  induction scan generalizing st with
  | nil => simpa [scanLoop]
  | cons d rest ih =>
    simp only [scanLoop]
    split
    · exact ih _ hinv
    · split
      · exact ih _ hinv
      · split
        · rename_i hcond
          simp only [Bool.not_eq_true'] at hcond
          have hst2 := poolInv_add ign st d hinv hcond
          split
          · exact hst2
          · exact ih _ hst2
        · exact ih _ hinv

theorem fitnessPool_not_ignored (db scan : List Exercise) (terms : List String)
    (p : UserProfile) (ign dislikes : List String) (k : ℕ) (no_equipment : Bool) :
    ∀ c ∈ fitnessCandidatePool db scan terms p ign dislikes k no_equipment,
      normStr c.Title ∉ ign := by
  intro c hc
  unfold fitnessCandidatePool at hc
  dsimp only at hc
  have h0 : PoolInv ign ([], ign) := ⟨fun x hx => hx, by simp⟩
  have h1 := levelLoop_inv db terms dislikes no_equipment k ign
    (search_levels (p.fitness_level.getD "Intermediate")) ([], ign) h0
  split at hc
  · exact (scanLoop_inv dislikes no_equipment k ign scan _ h1).2 c hc
  · exact h1.2 c hc

theorem mem_sortZipMapFst {α : Type} (cands : List α) (scores : List ℚ)
    (F : α × ℚ → α × ℚ) (hF : ∀ cb, (F cb).1 = cb.1) (a : α)
    (h : a ∈ (sortDescBy Prod.snd ((cands.zip scores).map F)).map Prod.fst) :
    a ∈ cands := by
  obtain ⟨pr, hpr, rfl⟩ := List.mem_map.mp h
  rw [mem_sortDescBy] at hpr
  obtain ⟨cb, hcb, rfl⟩ := List.mem_map.mp hpr
  rw [hF cb]
  exact (List.of_mem_zip hcb).1

theorem fitness_recs_not_ignored (db scan : List Exercise) (terms : List String)
    (sim : Option (List ℚ)) (p : UserProfile) (ign likes dislikes : List String)
    (k : ℕ) (no_equipment : Bool) :
    ∀ r ∈ get_fitness_recs db scan terms sim p ign likes dislikes k no_equipment,
      normStr r.ex.Title ∉ ign := by
  intro r hr
  unfold get_fitness_recs at hr
  dsimp only at hr
  by_cases hemp :
      (fitnessCandidatePool db scan terms p ign dislikes k no_equipment).isEmpty = true
  · rw [if_pos hemp] at hr
    simp at hr
  · rw [if_neg hemp] at hr
    obtain ⟨e, he, rfl⟩ := List.mem_map.mp hr
    have hetake := List.take_subset k _ he
    have hecand : e ∈ fitnessCandidatePool db scan terms p ign dislikes k no_equipment := by
      rcases sim with _ | base_scores
      · exact hetake
      · exact mem_sortZipMapFst _ base_scores
          (fun cb => (cb.1,
            finalScoreFit (goldStandardsFor (p.goal.getD "Maintenance")) likes cb.2 cb.1))
          (fun cb => rfl) e hetake
    exact fitnessPool_not_ignored db scan terms p ign dislikes k no_equipment e hecand

theorem nutritionPool_not_ignored (items : List Food) (pref cat : String)
    (ign dislikes : List String) :
    ∀ f ∈ nutritionCandidatePool items pref cat ign dislikes,
      normStr f.Name ∉ ign := by
  intro f hf
  unfold nutritionCandidatePool at hf
  dsimp only at hf
  split at hf
  · have h := (List.mem_filter.mp hf).2
    simp only [Bool.not_eq_true'] at h
    simpa using h
  · unfold nutritionFirstStage at hf
    have h := (List.mem_filter.mp hf).2
    simp only [Bool.and_eq_true, Bool.not_eq_true'] at h
    simpa using h.1.1.1

theorem nutrition_recs_not_ignored (items : List Food) (sim : Option (List ℚ))
    (p : UserProfile) (pv cv : Option String) (ign likes dislikes : List String)
    (k : ℕ) :
    ∀ f ∈ get_nutrition_recs items sim p pv cv ign likes dislikes k,
      normStr f.Name ∉ ign := by
  intro f hf
  unfold get_nutrition_recs at hf
  dsimp only at hf
  split at hf
  · simp at hf
  · set pref := (match pv with | some v => lowerStr v | none => "") with hpref
    set cat := (match cv with | some v => lowerStr v | none => "") with hcat
    by_cases hemp : (nutritionCandidatePool items pref cat ign dislikes).isEmpty = true
    · rw [if_pos hemp] at hf
      simp at hf
    · rw [if_neg hemp] at hf
      have hftake := List.take_subset k _ hf
      have hfcand : f ∈ nutritionCandidatePool items pref cat ign dislikes := by
        rcases sim with _ | base_scores
        · exact hftake
        · exact mem_sortZipMapFst _ base_scores
            (fun cb => (cb.1,
              finalScoreNut (goldStandardsFor (p.goal.getD "Maintenance")) likes cb.2 cb.1))
            (fun cb => rfl) f hftake
      exact nutritionPool_not_ignored items pref cat ign dislikes f hfcand

/-- C4: no title/name returned by `get_recommendations` (fitness or
nutrition intent) is, after trimming and lower-casing, equal to any
non-empty entry of the supplied ignore list — in fact unconditionally, so
in particular the claim holds with its "unless the pool would otherwise be
empty" allowance: even the nutrition empty-pool fallback keeps the ignore
filter. -/
theorem recommendations_respect_ignore_list (db scan : List Exercise)
    (terms : List String) (sim simN : Option (List ℚ)) (p : UserProfile)
    (ignore_list likes dislikes : List String) (k : ℕ) (no_equipment : Bool)
    (items : List Food) (pv cv : Option String) :
    (∀ r ∈ get_recommendations_fitness db scan terms sim p ignore_list likes dislikes
        k no_equipment,
      ∀ x ∈ ignore_list, x ≠ "" → normStr r.ex.Title ≠ normStr x) ∧
    (∀ f ∈ get_recommendations_nutrition items simN p pv cv ignore_list likes dislikes k,
      ∀ x ∈ ignore_list, x ≠ "" → normStr f.Name ≠ normStr x) := by
  have hmemclean : ∀ x ∈ ignore_list, x ≠ "" → normStr x ∈ cleanTermList ignore_list := by
    intro x hx hxne
    exact List.mem_map.mpr ⟨x, List.mem_filter.mpr ⟨hx, by simpa using hxne⟩, rfl⟩
  constructor
  · intro r hr x hx hxne heq
    have hnot := fitness_recs_not_ignored db scan terms sim p
      (cleanTermList ignore_list) (cleanTermList likes) (cleanTermList dislikes)
      k no_equipment r hr
    exact hnot (heq ▸ hmemclean x hx hxne)
  · intro f hf x hx hxne heq
    have hnot := nutrition_recs_not_ignored items simN p pv cv
      (cleanTermList ignore_list) (cleanTermList likes) (cleanTermList dislikes) k f hf
    exact hnot (heq ▸ hmemclean x hx hxne)

/-- Witness for C4: concrete one-exercise and one-food stores with the
ignore list ["Burpees"]; both pipelines return their item and its
normalized title differs from the normalized ignored title. -/
theorem recommendations_respect_ignore_list_witness :
    normStr (RankedExercise.mk
        ⟨"Pushup", "Chest", "Intermediate", "Body Only", "", "Strength"⟩
        "3-4 Sets • 10-12 Reps • 60s Rest").ex.Title ≠ normStr "Burpees" ∧
    normStr (Food.mk "Oats" "Breakfast" "Grains" 300 10 50).Name ≠ normStr "Burpees" := by
  have h := recommendations_respect_ignore_list
    [⟨"Pushup", "Chest", "Intermediate", "Body Only", "", "Strength"⟩] [] [] none none
    ⟨some 25, some 22, some "Maintenance", none, none⟩ ["Burpees"] [] [] 3 false
    [⟨"Oats", "Breakfast", "Grains", 300, 10, 50⟩] none none
  refine ⟨h.1 _ ?_ "Burpees" (by decide) (by decide),
    h.2 _ ?_ "Burpees" (by decide) (by decide)⟩
  · decide
  · decide

/-- C6 (amended): when the similarity computation fails (`sim = none`, the
locally-caught TF-IDF exception), both scorers return the candidate pool in
plain retrieval order truncated to `top_k` — no re-scoring of any kind, in
particular no effectiveness-only re-ranking — and no error is propagated:
the functions still return an ordinary list. -/
theorem sim_failure_keeps_retrieval_order (db scan : List Exercise)
    (terms : List String) (p : UserProfile) (ign likes dislikes : List String)
    (k : ℕ) (no_equipment : Bool) (items : List Food) (pv cv : Option String)
    (p2 : UserProfile) (ign2 likes2 dislikes2 : List String) (k2 : ℕ) :
    get_fitness_recs db scan terms none p ign likes dislikes k no_equipment =
      ((fitnessCandidatePool db scan terms p ign dislikes k no_equipment).take k).map
        (fun e => RankedExercise.mk e (get_smart_protocol p e.Level)) ∧
    get_nutrition_recs items none p2 pv cv ign2 likes2 dislikes2 k2 =
      (nutritionCandidatePool items
        (match pv with | some v => lowerStr v | none => "")
        (match cv with | some v => lowerStr v | none => "")
        ign2 dislikes2).take k2 := by
  constructor
  · unfold get_fitness_recs
    dsimp only
    by_cases hemp :
        (fitnessCandidatePool db scan terms p ign dislikes k no_equipment).isEmpty = true
    · rw [if_pos hemp]
      rw [List.isEmpty_iff.mp hemp]
      simp
    · rw [if_neg hemp]
  · unfold get_nutrition_recs
    dsimp only
    by_cases hitems : items.isEmpty = true
    · rw [if_pos hitems]
      rw [List.isEmpty_iff.mp hitems]
      simp [nutritionCandidatePool, nutritionFirstStage]
    · rw [if_neg hitems]
      by_cases hpool : (nutritionCandidatePool items
          (match pv with | some v => lowerStr v | none => "")
          (match cv with | some v => lowerStr v | none => "")
          ign2 dislikes2).isEmpty = true
      · rw [if_pos hpool]
        rw [List.isEmpty_iff.mp hpool]
        simp
      · rw [if_neg hpool]

/-- C6 (counterexample): with goal "Muscle Gain", a pool [Plank, Squats]
(retrieval order) and a failed similarity computation, the code returns
["Plank", "Squats"] unchanged, while the claimed effectiveness-only
fallback ranking would put "Squats" (one gold-standard match) first. -/
theorem sim_failure_reranking_counterexample :
    ((get_fitness_recs
        [⟨"Plank", "Abs", "Intermediate", "Body Only", "", ""⟩,
         ⟨"Squats", "Legs", "Intermediate", "Barbell", "", ""⟩] [] [] none
        ⟨some 25, some 22, some "Muscle Gain", none, none⟩ [] [] [] 3 false).map
      fun r => r.ex.Title) = ["Plank", "Squats"] ∧
    ((effectivenessOnlyOrder (goldStandardsFor "Muscle Gain")
        [⟨"Plank", "Abs", "Intermediate", "Body Only", "", ""⟩,
         ⟨"Squats", "Legs", "Intermediate", "Barbell", "", ""⟩]).map
      fun e => e.Title) = ["Squats", "Plank"] ∧
    (["Plank", "Squats"] : List String) ≠ ["Squats", "Plank"] := by
  refine ⟨by decide, ?_, by decide⟩
  have h1 : matchCountFit (goldStandardsFor "Muscle Gain")
      ⟨"Plank", "Abs", "Intermediate", "Body Only", "", ""⟩ = 0 := by decide
  have h2 : matchCountFit (goldStandardsFor "Muscle Gain")
      ⟨"Squats", "Legs", "Intermediate", "Barbell", "", ""⟩ = 1 := by decide
  have e1 : effectivenessFit (goldStandardsFor "Muscle Gain")
      ⟨"Plank", "Abs", "Intermediate", "Body Only", "", ""⟩ = 0 := by
    unfold effectivenessFit
    rw [h1]
    norm_num [minQ]
  have e2 : effectivenessFit (goldStandardsFor "Muscle Gain")
      ⟨"Squats", "Legs", "Intermediate", "Barbell", "", ""⟩ = 11/15 := by
    unfold effectivenessFit
    rw [h2]
    norm_num [minQ]
  unfold effectivenessOnlyOrder sortDescBy
  simp only [List.map_cons, List.map_nil, List.foldl_cons, List.foldl_nil, e1, e2,
    insertDescBy]
  rw [if_pos (by norm_num : Prod.snd
    ((⟨"Plank", "Abs", "Intermediate", "Body Only", "", ""⟩ : Exercise), (0:ℚ)) <
      Prod.snd ((⟨"Squats", "Legs", "Intermediate", "Barbell", "", ""⟩ : Exercise), (11/15:ℚ)))]
  simp

/-- C7 (counterexample): the dislike term "fish" occurs in the category
("Fish Dishes") but not in the name of "Tofu Bowl"; the claim says the item
is excluded, but the code's name-only filter keeps it and the nutrition
scorer returns it. -/
theorem food_dislike_category_counterexample :
    foodDislikeHitSpec ["fish"] ⟨"Tofu Bowl", "Lunch", "Fish Dishes", 300, 20, 30⟩ = true ∧
    foodDislikeHit ["fish"] ⟨"Tofu Bowl", "Lunch", "Fish Dishes", 300, 20, 30⟩ = false ∧
    get_nutrition_recs [⟨"Tofu Bowl", "Lunch", "Fish Dishes", 300, 20, 30⟩] none
      ⟨some 25, some 22, some "Maintenance", none, none⟩ none none [] [] ["fish"] 3 =
      [⟨"Tofu Bowl", "Lunch", "Fish Dishes", 300, 20, 30⟩] := by
  decide

theorem dislikeFree_fetch_step {dislikes : List String}
    {d : Exercise} (hd : ¬ exDislikeHit dislikes d = true)
    {s acc2 : List Exercise} (hs : ∀ c ∈ s, exDislikeHit dislikes c = false)
    (hacc2 : acc2 = s ++ [d]) : ∀ c ∈ acc2, exDislikeHit dislikes c = false := by
  subst hacc2
  intro c hc
  rcases List.mem_append.mp hc with h | h
  · exact hs c h
  · rw [List.mem_singleton.mp h]
    cases hb : exDislikeHit dislikes d
    · rfl
    · exact absurd hb hd

/-- Every exercise produced by `_fetch_candidates` (either pass) is free of
dislike hits on its title+equipment+type+description searchable text. -/
theorem fetch_candidates_dislike_free (db : List Exercise) (terms : List String)
    (lvl : String) (ign dislikes : List String) (mc : ℕ) :
    ∀ e ∈ fetch_candidates db terms lvl ign dislikes mc,
      exDislikeHit dislikes e = false := by
  unfold fetch_candidates
  dsimp only
  have hfirst : ∀ c ∈ (db.filter fun d =>
      d.Level = lvl && (terms.isEmpty || terms.contains d.Bodypart)).foldl
        (fun acc d =>
          if exDislikeHit dislikes d then acc
          else if normStr d.Title ≠ "" && !ign.contains (normStr d.Title) then acc ++ [d]
          else acc) [],
      exDislikeHit dislikes c = false := by
    apply foldl_preserve _ (fun s => ∀ c ∈ s, exDislikeHit dislikes c = false)
    · intro s d hs
      dsimp only
      split
      · exact hs
      · split
        · rename_i hd _
          exact dislikeFree_fetch_step hd hs rfl
        · exact hs
    · simp
  split
  · apply foldl_preserve _ (fun s => ∀ c ∈ s, exDislikeHit dislikes c = false)
    · intro s d hs
      dsimp only
      split
      · exact hs
      · split
        · rename_i hd _
          exact dislikeFree_fetch_step hd hs rfl
        · exact hs
    · exact hfirst
  · exact hfirst

/-- C7 (amended): for exercises the dislike exclusion is exactly as claimed
(substring of the concatenated title+equipment+type+description text), but
for food the filter consults the **name only**: an item passing the ignore
and preference checks is kept iff no dislike term occurs in its normalized
name — the category field is never consulted. -/
theorem dislike_filter_name_only (items : List Food) (pref cat : String)
    (ign dislikes : List String) (f : Food) (hf : f ∈ items)
    (hig : ign.contains (normStr f.Name) = false)
    (hck : substr "chicken" pref = false) (hck2 : substr "chicken" cat = false)
    (hveg : substr "vegetarian" pref = false) :
    (f ∈ nutritionFirstStage items pref cat ign dislikes ↔
      foodDislikeHit dislikes f = false) ∧
    (foodDislikeHit dislikes f = true ↔
      ∃ bad ∈ dislikes, substr bad (normStr f.Name) = true) ∧
    (∀ e : Exercise, exDislikeHit dislikes e = true ↔
      ∃ bad ∈ dislikes, substr bad (normStr e.Title ++ " " ++ normStr e.Equipment ++ " " ++
        normStr e.ExType ++ " " ++ normStr e.Desc) = true) ∧
    (∀ (db : List Exercise) (terms : List String) (lvl : String) (mc : ℕ),
      ∀ e ∈ fetch_candidates db terms lvl ign dislikes mc,
        exDislikeHit dislikes e = false) := by
  refine ⟨?_, ?_, ?_, fun db terms lvl mc => fetch_candidates_dislike_free db terms lvl ign dislikes mc⟩
  · have hig' : normStr f.Name ∉ ign := by simpa using hig
    unfold nutritionFirstStage
    rw [List.mem_filter]
    simp [hf, hig, hig', hck, hck2, hveg]
  · simp [foodDislikeHit, List.any_eq_true]
  · intro e
    simp [exDislikeHit, exSearchableText, List.any_eq_true]

/-- Witness for the amended C7: the "Tofu Bowl" item with dislikes ["fish"]
passes the name-only filter. -/
theorem dislike_filter_name_only_witness :
    ((⟨"Tofu Bowl", "Lunch", "Fish Dishes", 300, 20, 30⟩ : Food) ∈
      nutritionFirstStage [⟨"Tofu Bowl", "Lunch", "Fish Dishes", 300, 20, 30⟩] "" "" [] ["fish"] ↔
      foodDislikeHit ["fish"] ⟨"Tofu Bowl", "Lunch", "Fish Dishes", 300, 20, 30⟩ = false) ∧
    foodDislikeHit ["fish"] ⟨"Tofu Bowl", "Lunch", "Fish Dishes", 300, 20, 30⟩ = false := by
  have h := dislike_filter_name_only
    [⟨"Tofu Bowl", "Lunch", "Fish Dishes", 300, 20, 30⟩] "" "" [] ["fish"]
    ⟨"Tofu Bowl", "Lunch", "Fish Dishes", 300, 20, 30⟩
    (by decide) (by decide) (by decide) (by decide) (by decide)
  exact ⟨h.1, by decide⟩
